import Mathlib

/-!
Verification of the OpenClaw content-script core (popup.js content-script
section): DOM analysis, accessibility tree, Set-of-Mark labelling, target
resolution, interaction simulation, form automation, message dispatch and
the wait-for-selector race.

The page tree is embedded as a first-child / next-sibling forest of element
records.  Browser-owned facts that the code merely reads (bounding rectangle,
computed style, associated label texts, the `value`, `type`, `checked` and
`isContentEditable` properties) are fields of the element record; the
functions below that consume them (`isVisible`, the descriptor label chain,
the accessibility-name chain, …) are translated line by line from the
source.  CSS-selector and XPath engines are browser APIs, so `document.
querySelector(sel)` and `document.evaluate(xpath …)` are oracles supplied by
the environment; mark lookup (`querySelector('[data-openclaw-mark="m"]')`)
is implemented concretely as the first pre-order element carrying the
attribute.  Live element references are modelled as pre-order indices into
the document.  Timed delays (`sleep`, jitter) have no observable state here
and are dropped; dispatched events are recorded in an event trace.
-/

namespace OpenClaw

/-- Attribute lookup: first binding of the key, as `getAttribute` (an element
has at most one binding per attribute name; lists with duplicates keep the
first, matching setAttribute/removeAttribute below). -/
def getAttr (attrs : List (String × String)) (k : String) : Option String :=
  (attrs.find? (fun p => p.1 == k)).map (fun p => p.2)

/-- `el.setAttribute(k, v)`: replace any existing binding of `k` by `v`. -/
def setAttr (attrs : List (String × String)) (k v : String) : List (String × String) :=
  (k, v) :: attrs.filter (fun p => p.1 != k)

/-- `el.removeAttribute(k)`. -/
def removeAttr (attrs : List (String × String)) (k : String) : List (String × String) :=
  attrs.filter (fun p => p.1 != k)

/-- `data-openclaw-mark`, the MARK_ATTR constant of the content script. -/
def MARK_ATTR : String := "data-openclaw-mark"

/-- The INTERACTIVE_TAGS set of the content script. -/
def INTERACTIVE_TAGS : List String :=
  ["A", "BUTTON", "INPUT", "SELECT", "TEXTAREA", "LABEL",
   "DETAILS", "SUMMARY", "VIDEO", "AUDIO"]

/-- The SEMANTIC_ROLES table of the content script: implicit ARIA role per
tag name, absent for tags outside the table. -/
def SEMANTIC_ROLES (tag : String) : Option String :=
  if tag == "A" then some "link"
  else if tag == "BUTTON" then some "button"
  else if tag == "INPUT" then some "textbox"
  else if tag == "SELECT" then some "combobox"
  else if tag == "TEXTAREA" then some "textbox"
  else if tag == "FORM" then some "form"
  else if tag == "NAV" then some "navigation"
  else if tag == "MAIN" then some "main"
  else if tag == "HEADER" then some "banner"
  else if tag == "FOOTER" then some "contentinfo"
  else if tag == "ASIDE" then some "complementary"
  else if tag == "SECTION" then some "region"
  else if tag == "ARTICLE" then some "article"
  else if tag == "H1" || tag == "H2" || tag == "H3"
       || tag == "H4" || tag == "H5" || tag == "H6" then some "heading"
  else if tag == "UL" || tag == "OL" then some "list"
  else if tag == "LI" then some "listitem"
  else if tag == "TABLE" then some "table"
  else if tag == "TR" then some "row"
  else if tag == "TH" then some "columnheader"
  else if tag == "TD" then some "cell"
  else none

/-- An option of a `<select>` element: `value`, visible `text`, `selected`. -/
structure SelectOption where
  value : String
  text : String
  selected : Bool
deriving DecidableEq, Repr

/-- One element of the page tree, with the browser-owned observations the
content script reads: tag name (uppercase, as `el.tagName`), attribute list,
bounding-rectangle dimensions, the computed-style properties consulted by
`isVisible`, the element's own text (text directly inside it, before its
child elements), and the form-control properties `value`, `type`, `checked`,
`isContentEditable`, the texts of associated `<label>` elements
(`el.labels`), and `el.options` for selects (absent on other elements). -/
structure ElemData where
  tag : String
  attrs : List (String × String)
  rectW : Nat
  rectH : Nat
  cssVisibility : String
  cssDisplay : String
  cssOpacity : String
  ownText : String
  value : String
  typeProp : Option String
  checked : Bool
  isContentEditable : Bool
  labelTexts : List String
  options : Option (List SelectOption)
deriving DecidableEq, Repr

/-- `isVisible(el)` from the source: zero-sized box, `visibility:hidden`,
`display:none` or `opacity:0` make the element invisible. -/
def isVisible (d : ElemData) : Bool :=
  if d.rectW == 0 || d.rectH == 0 then false
  else d.cssVisibility != "hidden" && d.cssDisplay != "none" && d.cssOpacity != "0"

/-- Whether an element matches the CSS selector built by
`getInteractiveElements`: one of the INTERACTIVE_TAGS, one of six interactive
ARIA roles, `contenteditable="true"`, or a `tabindex` attribute. -/
def matchesInteractive (d : ElemData) : Bool :=
  INTERACTIVE_TAGS.contains d.tag
  || (getAttr d.attrs "role" == some "button")
  || (getAttr d.attrs "role" == some "link")
  || (getAttr d.attrs "role" == some "checkbox")
  || (getAttr d.attrs "role" == some "radio")
  || (getAttr d.attrs "role" == some "tab")
  || (getAttr d.attrs "role" == some "menuitem")
  || (getAttr d.attrs "contenteditable" == some "true")
  || (getAttr d.attrs "tabindex").isSome

/-- A forest of page elements in first-child / next-sibling form:
`node d c r` is an element with data `d`, child forest `c` and following
siblings `r`. -/
inductive Forest where
  | nil : Forest
  | node (d : ElemData) (c : Forest) (r : Forest) : Forest
deriving DecidableEq, Repr

/-- A page element: its record and its children. The document is the root
element (the source walks `document.body`). -/
structure Element where
  data : ElemData
  kids : Forest
deriving DecidableEq, Repr

/-- Pre-order (document-order) list of the element records of a forest. -/
def Forest.allData : Forest → List ElemData
  | .nil => []
  | .node d c r => d :: (c.allData ++ r.allData)

/-- Document-order list of the element records of a document. -/
def Element.allData (e : Element) : List ElemData :=
  e.data :: e.kids.allData

/-- Concatenated text of a forest, in document order. -/
def Forest.textAll : Forest → String
  | .nil => ""
  | .node d c r => d.ownText ++ c.textAll ++ r.textAll

/-- `el.textContent` of an element: its own text then its descendants'. -/
def textContent (d : ElemData) (c : Forest) : String :=
  d.ownText ++ c.textAll

/-- Map a function over every element record of a forest. -/
def Forest.mapData (g : ElemData → ElemData) : Forest → Forest
  | .nil => .nil
  | .node d c r => .node (g d) (c.mapData g) (r.mapData g)

/-- Map a function over every element record of a document. -/
def Element.mapData (e : Element) (g : ElemData → ElemData) : Element :=
  ⟨g e.data, e.kids.mapData g⟩

/-- Number of elements of a forest. -/
def Forest.size : Forest → Nat
  | .nil => 0
  | .node _ c r => 1 + c.size + r.size

/-- Update the element record at pre-order position `i` of a forest. -/
def Forest.updAt (g : ElemData → ElemData) : Nat → Forest → Forest
  | _, .nil => .nil
  | i, .node d c r =>
    if i == 0 then .node (g d) c r
    else if i ≤ c.size then .node d (c.updAt g (i - 1)) r
    else .node d c (r.updAt g (i - 1 - c.size))

/-- Update the element record at pre-order position `i` of a document;
models an in-place mutation through a live element reference. -/
def Element.updAt (e : Element) (g : ElemData → ElemData) (i : Nat) : Element :=
  if i == 0 then ⟨g e.data, e.kids⟩ else ⟨e.data, e.kids.updAt g (i - 1)⟩

/-- The element record a live reference (pre-order index) points at. -/
def refData (doc : Element) (i : Nat) : Option ElemData :=
  doc.allData.get? i

/-- JavaScript truthiness of a string-valued expression in an `a || b`
chain: an absent value and the empty string are falsy. -/
def jsStr : Option String → Option String
  | some s => if s == "" then none else some s
  | none => none

/-- JavaScript `String.prototype.trim()`: strip leading and trailing
whitespace (implemented over the character list so that terms reduce). -/
def jsTrim (s : String) : String :=
  ⟨(((s.data.dropWhile Char.isWhitespace).reverse).dropWhile Char.isWhitespace).reverse⟩

/-- JavaScript `String.prototype.slice(0, n)`, over characters. -/
def jsSlice (s : String) (n : Nat) : String :=
  ⟨s.data.take n⟩

/-- JavaScript `String.prototype.toLowerCase()`, over characters. -/
def jsToLower (s : String) : String :=
  ⟨s.data.map Char.toLower⟩

/-- The accessible-name chain of `buildA11yNode`:
`aria-label || title || placeholder || textContent.trim().slice(0,80) || null`,
with JavaScript falsiness at each step (an empty attribute value or empty
trimmed text falls through). `slice(0, 80)` is taken over characters. -/
def a11yName (d : ElemData) (c : Forest) : Option String :=
  (jsStr (getAttr d.attrs "aria-label")).orElse fun _ =>
  (jsStr (getAttr d.attrs "title")).orElse fun _ =>
  (jsStr (getAttr d.attrs "placeholder")).orElse fun _ =>
  (let t := jsTrim (textContent d c)
   if t == "" then none else some (jsSlice t 80))

/-- The role chain of `buildA11yNode`:
`role attribute || SEMANTIC_ROLES[tag] || tag.toLowerCase()`. -/
def a11yRole (d : ElemData) : String :=
  match jsStr (getAttr d.attrs "role") with
  | some r => r
  | none =>
    match SEMANTIC_ROLES d.tag with
    | some r => r
    | none => jsToLower d.tag

/-- The label chain of `describeElement`:
`aria-label || aria-labelledby || title || placeholder ||
 (el.labels && el.labels[0]?.textContent?.trim()) ||
 el.textContent?.trim().slice(0, 80) || null`, with JavaScript falsiness at
each step. `el.labels` is the associated-labels list (`labelTexts`). -/
def describeLabel (d : ElemData) (c : Forest) : Option String :=
  (jsStr (getAttr d.attrs "aria-label")).orElse fun _ =>
  (jsStr (getAttr d.attrs "aria-labelledby")).orElse fun _ =>
  (jsStr (getAttr d.attrs "title")).orElse fun _ =>
  (jsStr (getAttr d.attrs "placeholder")).orElse fun _ =>
  (jsStr ((d.labelTexts.head?).map jsTrim)).orElse fun _ =>
  (let t := jsTrim (textContent d c)
   if t == "" then none else some (jsSlice t 80))

/-- A node of the accessibility tree: role, name, tag, mark, children. -/
inductive A11yNode where
  | mk (role : String) (name : Option String) (tag : String)
       (mark : Option String) (children : List A11yNode) : A11yNode

/-- The name of an accessibility node. -/
def A11yNode.name : A11yNode → Option String
  | .mk _ n _ _ _ => n

/-- The children of an accessibility node. -/
def A11yNode.children : A11yNode → List A11yNode
  | .mk _ _ _ _ ch => ch

/-- The per-element body of `buildA11yNode`, with the recursively collected
children passed in: depth bound, role/name resolution, the `aria-hidden`
and visibility early returns (visibility only for `depth > 0`), and the
bottom-up pruning of nameless, childless, non-interactive nodes. -/
def a11yStep (d : ElemData) (c : Forest) (depth maxDepth : Nat)
    (children : List A11yNode) : Option A11yNode :=
  if depth > maxDepth then none
  else if getAttr d.attrs "aria-hidden" == some "true" then none
  else if !isVisible d && depth > 0 then none
  else if (a11yName d c).isNone && children.isEmpty
          && !INTERACTIVE_TAGS.contains d.tag then none
  else some (.mk (a11yRole d) (a11yName d c) d.tag
                 (jsStr (getAttr d.attrs MARK_ATTR)) children)

/-- Collects the non-absent `buildA11yNode` results of the elements of a
forest of siblings at a given depth, in document order. -/
def a11yChildren (maxDepth : Nat) : Nat → Forest → List A11yNode
  | _, .nil => []
  | depth, .node d c r =>
    match a11yStep d c depth maxDepth (a11yChildren maxDepth (depth + 1) c) with
    | some n => n :: a11yChildren maxDepth depth r
    | none => a11yChildren maxDepth depth r

/-- `buildA11yNode(el, depth, maxDepth)`: the recursive accessibility-tree
builder of the source, absent (`none`) when the node is dropped. -/
def buildA11yNode (e : Element) (depth : Nat) (maxDepth : Nat := 10) : Option A11yNode :=
  a11yStep e.data e.kids depth maxDepth (a11yChildren maxDepth (depth + 1) e.kids)

/-- `getAccessibilityTree(maxDepth = 8)`, restricted to its `tree` field:
`buildA11yNode(document.body, 0, maxDepth)` (the surrounding `url` and
`title` fields are browser state carried unchanged). -/
def getAccessibilityTree (body : Element) (maxDepth : Nat := 8) : Option A11yNode :=
  buildA11yNode body 0 maxDepth

/-- `clearSetOfMarks(root)` at the document root: every element carrying the
mark attribute loses it (removal is the identity on elements without it). -/
def clearSetOfMarks (doc : Element) : Element :=
  doc.mapData fun d => { d with attrs := removeAttr d.attrs MARK_ATTR }

/-- `getInteractiveElements(root)` at the document root, as element records:
all elements matching the interactive selector, in document order, filtered
by visibility. -/
def getInteractiveElements (doc : Element) : List ElemData :=
  (doc.allData.filter matchesInteractive).filter isVisible

/-- An element qualifies for a mark when it matches the interactive selector
and is visible. -/
def qualifies (d : ElemData) : Bool :=
  matchesInteractive d && isVisible d

/-- Writes mark `n` onto an element record. -/
def setMarkD (d : ElemData) (n : Nat) : ElemData :=
  { d with attrs := setAttr d.attrs MARK_ATTR (toString n) }

/-- The marking pass over a forest: walks the elements in document order
threading the count of qualifying elements seen so far, and writes mark
`String(idx + 1)` onto each qualifying element — the tree effect of
`elements.forEach((el, idx) => el.setAttribute(MARK_ATTR, String(idx+1)))`
performed through live references in the source. -/
def markForest (n : Nat) : Forest → Forest × Nat
  | .nil => (.nil, n)
  | .node d c r =>
    let p := if qualifies d then (setMarkD d (n + 1), n + 1) else (d, n)
    let pc := markForest p.2 c
    let pr := markForest pc.2 r
    (.node p.1 pc.1 pr.1, pr.2)

/-- The flat counterpart of the marking pass over a document-order list. -/
def markList (n : Nat) : List ElemData → List ElemData
  | [] => []
  | d :: ds =>
    if qualifies d then setMarkD d (n + 1) :: markList (n + 1) ds
    else d :: markList n ds

/-- `applySetOfMarks(document)`: clear pre-existing marks, then assign marks
`"1".."N"` to the visible interactive elements in document order.  Returns
the marked document and the key set of the returned mark registry (the
registry maps `String(idx+1)` to the idx-th qualifying element; its values
are live references, here the document-order enumeration of
`getInteractiveElements`).  The injected overlay stylesheet is
presentational and not modelled. -/
def applySetOfMarks (doc : Element) : Element × List String :=
  let d0 := clearSetOfMarks doc
  let els := getInteractiveElements d0
  let marked : Element :=
    let p := if qualifies d0.data then (setMarkD d0.data 1, 1) else (d0.data, 0)
    let pc := markForest p.2 d0.kids
    ⟨p.1, pc.1⟩
  (marked, (List.range els.length).map fun i => toString (i + 1))

/-- A target descriptor: any subset of the `mark`, `selector` and `xpath`
keys may be set.  A numeric mark behaves as its decimal string (it is only
interpolated into the lookup selector), so marks are modelled as strings. -/
structure Target where
  mark : Option String := none
  selector : Option String := none
  xpath : Option String := none
deriving DecidableEq, Repr

/-- The faults `resolveTarget` raises, tagged by throw site: no match for
the chosen lookup (`TargetNotFound`) versus a malformed target
(`InvalidTarget`); the payload is the thrown `Error`'s message. -/
inductive ResolveErr where
  | targetNotFound (msg : String) : ResolveErr
  | invalidTarget (msg : String) : ResolveErr
deriving DecidableEq, Repr

/-- The message of a resolution fault, as caught at a dispatch boundary. -/
def ResolveErr.message : ResolveErr → String
  | .targetNotFound m => m
  | .invalidTarget m => m

/-- The browser's selector and XPath engines, external to this core:
`document.querySelector(sel)` and first-ordered-node `document.evaluate`,
returning a live element reference (a pre-order index) or nothing. -/
structure DomOracle where
  querySelector : String → Option Nat
  evaluateXPath : String → Option Nat

/-- `document.querySelector('[data-openclaw-mark="m"]')`: the first element
in document order whose mark attribute equals `m`. -/
def queryMarkIdx (doc : Element) (m : String) : Option Nat :=
  doc.allData.findIdx? fun d => getAttr d.attrs MARK_ATTR == some m

/-- `resolveTarget(target)`: `target` absent throws `target is required`;
a mark key holding a string or number is checked first, then a truthy
selector, then a truthy xpath; the chosen lookup's failure throws a
`No element …` error; with no usable key it throws
`target must have mark, selector, or xpath`. -/
def resolveTarget (doc : Element) (o : DomOracle) : Option Target → Except ResolveErr Nat
  | none => .error (.invalidTarget "target is required")
  | some t =>
    match t.mark with
    | some m =>
      match queryMarkIdx doc m with
      | some i => .ok i
      | none => .error (.targetNotFound s!"No element with mark {m}")
    | none =>
      if (jsStr t.selector).isSome then
        let s := t.selector.getD ""
        match o.querySelector s with
        | some i => .ok i
        | none => .error (.targetNotFound s!"No element matching \"{s}\"")
      else if (jsStr t.xpath).isSome then
        let s := t.xpath.getD ""
        match o.evaluateXPath s with
        | some i => .ok i
        | none => .error (.targetNotFound s!"No element at XPath \"{s}\"")
      else .error (.invalidTarget "target must have mark, selector, or xpath")

/-- A dispatched DOM event in the trace: target reference and event name. -/
structure Ev where
  idx : Nat
  name : String
deriving DecidableEq, Repr

/-- Options of `clickElement`. -/
structure ClickOpts where
  rightClick : Bool := false
deriving DecidableEq, Repr

/-- The event sequence of `clickElement` on a resolved element: the
human-paced mouse approach, then mousedown, mouseup, click, and the
optional context menu. -/
def clickEvents (i : Nat) (opts : ClickOpts) : List Ev :=
  [⟨i, "mousemove"⟩, ⟨i, "mouseenter"⟩, ⟨i, "mousedown"⟩, ⟨i, "mouseup"⟩, ⟨i, "click"⟩]
  ++ (if opts.rightClick then [⟨i, "contextmenu"⟩] else [])

/-- `clickElement(target, options)`: resolve, scroll into view (no modelled
state), dispatch the pointer sequence, return the element's descriptor
reference.  Default actions of the synthetic events are browser behaviour
outside this model, so the document is unchanged. -/
def clickElement (doc : Element) (o : DomOracle) (t : Option Target)
    (opts : ClickOpts) : Except ResolveErr (List Ev × Nat) :=
  match resolveTarget doc o t with
  | .error e => .error e
  | .ok i => .ok (clickEvents i opts, i)

/-- Options of `typeInElement`. -/
structure TypeOpts where
  clearFirst : Bool := false
  humanDelay : Bool := true
deriving DecidableEq, Repr

/-- One character step of the typing loop: append to `value` for `INPUT`
and `TEXTAREA`; insert into the text for contenteditable regions (the
Selection-API caret insertion, modelled as appending to the element's own
text); otherwise no state change. -/
def typeCharStep (d : ElemData) (ch : Char) : ElemData :=
  if d.tag == "INPUT" || d.tag == "TEXTAREA" then { d with value := d.value.push ch }
  else if d.isContentEditable then { d with ownText := d.ownText.push ch }
  else d

/-- The state effect of `typeInElement` on the resolved element: optional
clear of `value`, then the per-character loop over the text. -/
def typeApply (d : ElemData) (text : String) (opts : TypeOpts) : ElemData :=
  let d0 := if opts.clearFirst then { d with value := "" } else d
  text.foldl typeCharStep d0

/-- The event trace of `typeInElement`: the clear's input notification, then
keydown/keypress/keyup/input per character, then the trailing change. -/
def typeEvents (i : Nat) (text : String) (opts : TypeOpts) : List Ev :=
  (if opts.clearFirst then [⟨i, "input"⟩] else [])
  ++ text.data.flatMap (fun _ => [⟨i, "keydown"⟩, ⟨i, "keypress"⟩, ⟨i, "keyup"⟩, ⟨i, "input"⟩])
  ++ [⟨i, "change"⟩]

/-- `typeInElement(target, text, options)`: resolve, focus, optionally
clear, type each character, emit the trailing change; returns the updated
document, the event trace and the typed element's reference. -/
def typeInElement (doc : Element) (o : DomOracle) (t : Option Target)
    (text : String) (opts : TypeOpts) : Except ResolveErr (Element × List Ev × Nat) :=
  match resolveTarget doc o t with
  | .error e => .error e
  | .ok i => .ok (doc.updAt (fun d => typeApply d text opts) i, typeEvents i text opts, i)

/-- A JavaScript value occurring as a form-field `value`: a string or a
boolean (the two shapes exercised by the fill-form protocol). -/
inductive JSValue where
  | str (s : String) : JSValue
  | bool (b : Bool) : JSValue
deriving DecidableEq, Repr

/-- `String(value)`. -/
def JSValue.toStr : JSValue → String
  | .str s => s
  | .bool b => if b then "true" else "false"

/-- Strict equality (`===`) of a field value with a string. -/
def jsEqStr (v : JSValue) (s : String) : Bool :=
  match v with
  | .str x => x == s
  | .bool _ => false

/-- `value === true || value === 'true' || value === '1'`. -/
def shouldCheckOf (v : JSValue) : Bool :=
  match v with
  | .bool b => b
  | .str s => s == "true" || s == "1"

/-- Whether an option matches the field value by value-or-text equality. -/
def optionMatches (v : JSValue) (ob : SelectOption) : Bool :=
  jsEqStr v ob.value || jsEqStr v ob.text

/-- `option.selected = true` on the first option matching the value. -/
def selectMatching (v : JSValue) : List SelectOption → List SelectOption
  | [] => []
  | ob :: obs =>
    if optionMatches v ob then { ob with selected := true } :: obs
    else ob :: selectMatching v obs

/-- One entry of a `fillForm` batch: target, value and `type` tag. -/
structure FormField where
  target : Option Target
  value : JSValue
  kind : Option String
deriving DecidableEq, Repr

/-- One entry of a `fillForm` result list. -/
structure FillResult where
  target : Option Target
  ok : Bool
  error : Option String
deriving DecidableEq, Repr

/-- The body of one iteration of the `fillForm` loop: resolve the target;
for `type === 'select'` focus and select the first option matching by value
or text, emitting change only when a match exists (`Array.from(el.options)`
throws on elements without options); for checkbox/radio elements click only
when the checked state differs from the desired one; otherwise run the
typing sequence with `clearFirst` enabled.  Returns the updated document
and the dispatched events, or the caught error message. -/
def fillField (doc : Element) (o : DomOracle) (f : FormField) :
    Except String (Element × List Ev) :=
  match resolveTarget doc o f.target with
  | .error e => .error e.message
  | .ok i =>
    match refData doc i with
    | none => .error "element reference is stale"
    | some d =>
      if f.kind == some "select" then
        match d.options with
        | none => .error "el.options is not iterable"
        | some obs =>
          if obs.any (optionMatches f.value) then
            .ok (doc.updAt (fun dd => { dd with options := dd.options.map (selectMatching f.value) }) i,
                 [⟨i, "change"⟩])
          else
            .ok (doc, [])
      else if d.typeProp == some "checkbox" || d.typeProp == some "radio" then
        if d.checked != shouldCheckOf f.value then
          match clickElement doc o f.target {} with
          | .error e => .error e.message
          | .ok (evs, _) => .ok (doc, evs)
        else .ok (doc, [])
      else
        match typeInElement doc o f.target f.value.toStr { clearFirst := true } with
        | .error e => .error e.message
        | .ok (doc2, evs, _) => .ok (doc2, evs)

/-- `fillForm(fields)`: iterate the fields in order, capturing each field's
success or failure independently; a failing field contributes an
`ok:false` entry with the caught message and leaves the document for the
remaining fields as it was.  The function is total: it always returns one
result entry per field and raises nothing. -/
def fillForm (doc : Element) (o : DomOracle) : List FormField → Element × List Ev × List FillResult
  | [] => (doc, [], [])
  | f :: fs =>
    match fillField doc o f with
    | .ok (d2, evs) =>
      let rest := fillForm d2 o fs
      (rest.1, evs ++ rest.2.1, ⟨f.target, true, none⟩ :: rest.2.2)
    | .error m =>
      let rest := fillForm doc o fs
      (rest.1, rest.2.1, ⟨f.target, false, some m⟩ :: rest.2.2)

/-- An incoming content-script command, by its `type` tag; `unknown` stands
for any tag outside the switch. -/
inductive CSMessage where
  | ping : CSMessage
  | getDomSnapshot (maxElements : Option Nat) (includeHidden : Option Bool) : CSMessage
  | getAccessibilityTree (maxDepth : Option Nat) : CSMessage
  | applyMarks : CSMessage
  | clearMarks : CSMessage
  | clickElem (target : Option Target) (opts : ClickOpts) : CSMessage
  | typeElem (target : Option Target) (text : String) (opts : TypeOpts) : CSMessage
  | scroll : CSMessage
  | fillFormMsg (fields : List FormField) : CSMessage
  | getPageInfo : CSMessage
  | findElements (selector : Option String) (limit : Option Nat) : CSMessage
  | waitForSelectorMsg (selector : String) (timeout : Option Nat) : CSMessage
  | unknown (tag : String) : CSMessage
deriving DecidableEq, Repr

/-- The `ok` / `error` / `timedOut` shape of a content-script response.
Success payloads (`snapshot`, `tree`, `element`, …) carry no information
the verified properties consult and are not tracked. -/
structure Response where
  ok : Bool
  error : Option String := none
  timedOut : Option Bool := none
deriving DecidableEq, Repr

/-- The page-side world a command executes against: the document, the
browser's selector/xpath engines, and the outcome of the mutation/timeout
race for a wait-for-selector invocation (`true` when the selector appears
before the timeout). -/
structure World where
  doc : Element
  oracle : DomOracle
  waitFound : Bool

/-- The `handle` switch of the content-script message listener: each case
runs its operation and returns the response; a raised fault surfaces as
`Except.error` with the error's message.  The default case returns a
structured failure (it does not throw). -/
def handle (w : World) : CSMessage → Except String Response
  | .ping => .ok { ok := true }
  | .getDomSnapshot _ _ => .ok { ok := true }
  | .getAccessibilityTree md =>
    let _ := getAccessibilityTree w.doc (md.getD 8)
    .ok { ok := true }
  | .applyMarks =>
    let _ := applySetOfMarks w.doc
    .ok { ok := true }
  | .clearMarks =>
    let _ := clearSetOfMarks w.doc
    .ok { ok := true }
  | .clickElem t opts =>
    match clickElement w.doc w.oracle t opts with
    | .ok _ => .ok { ok := true }
    | .error e => .error e.message
  | .typeElem t text opts =>
    match typeInElement w.doc w.oracle t text opts with
    | .ok _ => .ok { ok := true }
    | .error e => .error e.message
  | .scroll => .ok { ok := true }
  | .fillFormMsg fields =>
    let _ := fillForm w.doc w.oracle fields
    .ok { ok := true }
  | .getPageInfo => .ok { ok := true }
  | .findElements _ _ => .ok { ok := true }
  | .waitForSelectorMsg _ _ =>
    .ok { ok := w.waitFound, timedOut := some (!w.waitFound) }
  | .unknown tag =>
    .ok { ok := false, error := some s!"Unknown message type: {tag}" }

/-- The dispatch boundary around `handle`: a successful promise sends its
response; a rejection is caught and sent as `{ok:false, error:message}`. -/
def dispatch (w : World) (msg : CSMessage) : Response :=
  match handle w msg with
  | .ok r => r
  | .error m => { ok := false, error := some m }

/-- An asynchronous occurrence during a `waitForSelector` invocation: a
batch of mutations delivered to the observer (`found` records whether
`document.querySelector(selector)` matches at that instant), or the firing
of the timeout. -/
inductive WfsEv where
  | mutation (found : Bool) : WfsEv
  | timeoutFire : WfsEv
deriving DecidableEq, Repr

/-- The state of one `waitForSelector` invocation: the promise (absent
while pending, then its settled value, which never changes again) and
whether the mutation observer is connected. -/
structure WfsState where
  settled : Option Bool
  observerConnected : Bool
deriving DecidableEq, Repr

/-- `resolve(v)` on a promise: the first settlement wins, later calls are
ignored. -/
def resolveOnce (p : Option Bool) (v : Bool) : Option Bool :=
  some (p.getD v)

/-- One asynchronous step of `waitForSelector`: the observer callback
re-queries and, on a match, disconnects and resolves `true` (a disconnected
observer receives no callbacks); the timeout callback disconnects and
resolves `false`. -/
def wfsStep (s : WfsState) : WfsEv → WfsState
  | .mutation found =>
    if s.observerConnected && found then
      { settled := resolveOnce s.settled true, observerConnected := false }
    else s
  | .timeoutFire =>
    { settled := resolveOnce s.settled false, observerConnected := false }

/-- A run of `waitForSelector(selector, timeout)`: when the selector
already matches, the promise resolves `true` immediately and neither the
observer nor the timer is created; otherwise the observer is connected, the
timer armed, and the occurrences of the run are processed in order. -/
def wfsRun (initiallyPresent : Bool) (evs : List WfsEv) : WfsState :=
  if initiallyPresent then { settled := some true, observerConnected := false }
  else evs.foldl wfsStep { settled := none, observerConnected := true }

/-- The side of the race that settles first in an occurrence sequence:
`true` at the first observer-visible match, `false` at the timeout. -/
def firstSettler : List WfsEv → Option Bool
  | [] => none
  | .mutation found :: evs => if found then some true else firstSettler evs
  | .timeoutFire :: _ => some false

theorem find?_filter_ne (k kq : String) (h : kq ≠ k) :
    ∀ a : List (String × String),
      (a.filter fun p => p.1 != k).find? (fun p => p.1 == kq)
        = a.find? (fun p => p.1 == kq) := by
  intro a
  induction a with
  | nil => rfl
  | cons q a ih =>
    by_cases hq : q.1 = kq
    · have hk : (q.1 != k) = true := by simp [hq, h]
      simp [List.filter_cons, hk, List.find?_cons, hq, h]
    · by_cases hqk : q.1 = k
      · have hk : (q.1 != k) = false := by simp [hqk]
        simp [List.filter_cons, hk, List.find?_cons, hq, ih]
      · have hk : (q.1 != k) = true := by simp [hqk]
        simp [List.filter_cons, hk, List.find?_cons, hq, ih]

theorem getAttr_removeAttr_self (a : List (String × String)) (k : String) :
    getAttr (removeAttr a k) k = none := by
  induction a with
  | nil => rfl
  | cons q l ih =>
    by_cases h : q.1 = k
    · have hk : (q.1 != k) = false := by simp [h]
      simp only [removeAttr, List.filter_cons, hk, Bool.false_eq_true, if_false]
      exact ih
    · have hk : (q.1 != k) = true := by simp [h]
      have hbeq : (q.1 == k) = false := by simp [h]
      simp only [removeAttr, List.filter_cons, hk, if_true, getAttr, List.find?_cons,
        hbeq]
      simp only [removeAttr, getAttr] at ih
      exact ih

theorem getAttr_setAttr_self (a : List (String × String)) (k v : String) :
    getAttr (setAttr a k v) k = some v := by
  simp [getAttr, setAttr, List.find?_cons]

theorem getAttr_setAttr_ne (a : List (String × String)) (k v kq : String)
    (h : kq ≠ k) : getAttr (setAttr a k v) kq = getAttr a kq := by
  have hk : (k == kq) = false := by
    simp only [beq_eq_false_iff_ne, ne_eq]
    exact fun hkk => h hkk.symm
  simp [getAttr, setAttr, List.find?_cons, hk, find?_filter_ne k kq h]

theorem allData_mapData (g : ElemData → ElemData) :
    ∀ f : Forest, (f.mapData g).allData = f.allData.map g := by
  intro f
  induction f with
  | nil => rfl
  | node d c r ihc ihr =>
    simp [Forest.mapData, Forest.allData, ihc, ihr]

theorem allData_length_eq_size : ∀ f : Forest, f.allData.length = f.size := by
  intro f
  induction f with
  | nil => rfl
  | node d c r ihc ihr =>
    simp [Forest.allData, Forest.size, ihc, ihr]
    omega

theorem elem_allData_mapData (e : Element) (g : ElemData → ElemData) :
    (e.mapData g).allData = e.allData.map g := by
  simp [Element.mapData, Element.allData, allData_mapData]

theorem getInteractive_eq_filter (doc : Element) :
    getInteractiveElements doc = doc.allData.filter qualifies := by
  simp only [getInteractiveElements, List.filter_filter]
  apply List.filter_congr
  intro a _
  simp [qualifies, Bool.and_comm]

theorem allData_updAt_length (g : ElemData → ElemData) :
    ∀ (f : Forest) (i : Nat),
      (f.updAt g i).allData.length = f.allData.length := by
  intro f
  induction f with
  | nil => intro i; rfl
  | node d c r ihc ihr =>
    intro i
    by_cases hi : i = 0
    · simp [hi, Forest.updAt, Forest.allData]
    · have hi0 : (i == 0) = false := by simp [hi]
      by_cases hic : i ≤ c.size
      · simp [Forest.updAt, hi0, hic, Forest.allData, ihc]
      · simp [Forest.updAt, hi0, hic, Forest.allData, ihr]

theorem forest_allData_updAt (g : ElemData → ElemData) :
    ∀ (f : Forest) (i j : Nat),
      (f.updAt g i).allData[j]?
        = if j = i then (f.allData[j]?).map g else f.allData[j]? := by
  intro f
  induction f with
  | nil => intro i j; simp [Forest.updAt, Forest.allData]
  | node d c r ihc ihr =>
    intro i j
    have hcl : c.allData.length = c.size := allData_length_eq_size c
    by_cases hi : i = 0
    · subst hi
      by_cases hj : j = 0
      · subst hj; simp [Forest.updAt, Forest.allData]
      · obtain ⟨j2, rfl⟩ : ∃ j2, j = j2 + 1 := ⟨j - 1, by omega⟩
        simp [Forest.updAt, Forest.allData]
    · have hi0 : (i == 0) = false := by simp [hi]
      by_cases hj : j = 0
      · subst hj
        by_cases hic : i ≤ c.size
        · simp [Forest.updAt, hi0, hic, Forest.allData, Ne.symm hi]
        · simp [Forest.updAt, hi0, hic, Forest.allData, Ne.symm hi]
      · obtain ⟨j2, rfl⟩ : ∃ j2, j = j2 + 1 := ⟨j - 1, by omega⟩
        by_cases hic : i ≤ c.size
        · have hlen : ((c.updAt g (i - 1)).allData).length = c.allData.length :=
            allData_updAt_length g c (i - 1)
          simp only [Forest.updAt, hi0, Bool.false_eq_true, if_false, hic, if_true,
            Forest.allData, List.getElem?_cons_succ]
          by_cases hjc : j2 < c.allData.length
          · rw [List.getElem?_append_left (by rw [hlen]; exact hjc),
              List.getElem?_append_left hjc, ihc (i - 1) j2]
            have hiff : (j2 = i - 1) ↔ (j2 + 1 = i) := by omega
            exact if_congr hiff rfl rfl
          · have hjc2 : c.allData.length ≤ j2 := by omega
            rw [List.getElem?_append_right (by rw [hlen]; exact hjc2),
              List.getElem?_append_right hjc2, hlen]
            have hne : ¬ (j2 + 1 = i) := by omega
            rw [if_neg hne]
        · simp only [Forest.updAt, hi0, Bool.false_eq_true, if_false, hic,
            Forest.allData, List.getElem?_cons_succ]
          by_cases hjc : j2 < c.allData.length
          · rw [List.getElem?_append_left hjc, List.getElem?_append_left hjc]
            have hne : ¬ (j2 + 1 = i) := by omega
            rw [if_neg hne]
          · have hjc2 : c.allData.length ≤ j2 := by omega
            rw [List.getElem?_append_right hjc2, List.getElem?_append_right hjc2,
              ihr (i - 1 - c.size) (j2 - c.allData.length)]
            have hiff : (j2 - c.allData.length = i - 1 - c.size) ↔ (j2 + 1 = i) := by
              omega
            exact if_congr hiff rfl rfl

theorem elem_refData_updAt (doc : Element) (g : ElemData → ElemData) (i j : Nat) :
    refData (doc.updAt g i) j
      = if j = i then (refData doc j).map g else refData doc j := by
  by_cases hi : i = 0
  · subst hi
    by_cases hj : j = 0
    · subst hj; simp [Element.updAt, refData, Element.allData]
    · obtain ⟨j2, rfl⟩ : ∃ j2, j = j2 + 1 := ⟨j - 1, by omega⟩
      simp [Element.updAt, refData, Element.allData]
  · have hi0 : (i == 0) = false := by simp [hi]
    by_cases hj : j = 0
    · subst hj
      simp [Element.updAt, hi0, refData, Element.allData, Ne.symm hi]
    · obtain ⟨j2, rfl⟩ : ∃ j2, j = j2 + 1 := ⟨j - 1, by omega⟩
      simp only [Element.updAt, hi0, Bool.false_eq_true, if_false, refData,
        Element.allData, List.get?_eq_getElem?, List.getElem?_cons_succ]
      rw [forest_allData_updAt g doc.kids (i - 1) j2]
      have hiff : (j2 = i - 1) ↔ (j2 + 1 = i) := by omega
      exact if_congr hiff rfl rfl

theorem qualifies_setMarkD (d : ElemData) (n : Nat) :
    qualifies (setMarkD d n) = qualifies d := by
  have hrole : getAttr (setAttr d.attrs MARK_ATTR (toString n)) "role"
      = getAttr d.attrs "role" :=
    getAttr_setAttr_ne _ _ _ _ (by decide)
  have hce : getAttr (setAttr d.attrs MARK_ATTR (toString n)) "contenteditable"
      = getAttr d.attrs "contenteditable" :=
    getAttr_setAttr_ne _ _ _ _ (by decide)
  have hti : getAttr (setAttr d.attrs MARK_ATTR (toString n)) "tabindex"
      = getAttr d.attrs "tabindex" :=
    getAttr_setAttr_ne _ _ _ _ (by decide)
  simp [qualifies, matchesInteractive, isVisible, setMarkD, hrole, hce, hti]

theorem getAttr_setMarkD (d : ElemData) (n : Nat) :
    getAttr (setMarkD d n).attrs MARK_ATTR = some (toString n) :=
  getAttr_setAttr_self d.attrs MARK_ATTR (toString n)

/-- Count of qualifying elements of a document-order list. -/
def countQ (l : List ElemData) : Nat :=
  (l.filter qualifies).length

theorem markList_append (xs ys : List ElemData) :
    ∀ n, markList n (xs ++ ys) = markList n xs ++ markList (n + countQ xs) ys := by
  induction xs with
  | nil => intro n; simp [markList, countQ]
  | cons d xs ih =>
    intro n
    by_cases h : qualifies d = true
    · have hc : countQ (d :: xs) = countQ xs + 1 := by
        simp [countQ, List.filter_cons, h]
      have harith : n + (countQ (d :: xs)) = n + 1 + countQ xs := by omega
      simp only [List.cons_append, markList, h, if_true, harith, List.append_eq,
        ih (n + 1)]
    · have hb : qualifies d = false := by
        cases hq : qualifies d
        · rfl
        · exact absurd hq h
      have hc : countQ (d :: xs) = countQ xs := by
        simp [countQ, List.filter_cons, hb]
      simp [markList, hb, hc, ih n]

theorem markForest_count : ∀ (f : Forest) (n : Nat),
    (markForest n f).2 = n + countQ f.allData := by
  intro f
  induction f with
  | nil => intro n; simp [markForest, Forest.allData, countQ]
  | node d c r ihc ihr =>
    intro n
    by_cases h : qualifies d = true
    · simp only [markForest, h, if_true, ihc, ihr, Forest.allData]
      have : countQ (d :: (c.allData ++ r.allData))
          = 1 + countQ c.allData + countQ r.allData := by
        simp [countQ, List.filter_cons, h, List.filter_append]
        omega
      omega
    · have hb : qualifies d = false := by
        cases hq : qualifies d
        · rfl
        · exact absurd hq h
      simp only [markForest, hb, Bool.false_eq_true, if_false, ihc, ihr, Forest.allData]
      have : countQ (d :: (c.allData ++ r.allData))
          = countQ c.allData + countQ r.allData := by
        simp [countQ, List.filter_cons, hb, List.filter_append]
      omega

theorem markForest_allData : ∀ (f : Forest) (n : Nat),
    (markForest n f).1.allData = markList n f.allData := by
  intro f
  induction f with
  | nil => intro n; simp [markForest, Forest.allData, markList]
  | node d c r ihc ihr =>
    intro n
    by_cases h : qualifies d = true
    · simp only [markForest, h, if_true, Forest.allData, ihc, ihr, markForest_count,
        markList, List.cons.injEq, true_and]
      rw [markList_append]
    · have hb : qualifies d = false := by
        cases hq : qualifies d
        · rfl
        · exact absurd hq h
      simp only [markForest, hb, Bool.false_eq_true, if_false, Forest.allData, ihc, ihr,
        markForest_count, markList, List.cons.injEq, true_and]
      rw [markList_append]

/-- Marks `n+1, n+2, …` assigned along a list of qualifying elements. -/
def enumMark (n : Nat) : List ElemData → List ElemData
  | [] => []
  | d :: ds => setMarkD d (n + 1) :: enumMark (n + 1) ds

theorem markList_filter_qualifies (ds : List ElemData) :
    ∀ n, (markList n ds).filter qualifies = enumMark n (ds.filter qualifies) := by
  induction ds with
  | nil => intro n; simp [markList, enumMark]
  | cons d ds ih =>
    intro n
    by_cases h : qualifies d = true
    · have h2 : qualifies (setMarkD d (n + 1)) = true := by
        rw [qualifies_setMarkD]; exact h
      simp [markList, h, List.filter_cons, h2, enumMark, ih (n + 1)]
    · have hb : qualifies d = false := by
        cases hq : qualifies d
        · rfl
        · exact absurd hq h
      simp [markList, hb, List.filter_cons, ih n]

theorem enumMark_get (ds : List ElemData) :
    ∀ n i, (enumMark n ds)[i]? = (ds[i]?).map fun d => setMarkD d (n + i + 1) := by
  induction ds with
  | nil => intro n i; simp [enumMark]
  | cons d ds ih =>
    intro n i
    cases i with
    | zero => simp [enumMark]
    | succ i2 =>
      simp only [enumMark, List.getElem?_cons_succ, ih (n + 1) i2]
      have : n + 1 + i2 + 1 = n + (i2 + 1) + 1 := by omega
      rw [this]

theorem markList_not_qualifying (ds : List ElemData) :
    ∀ n d2, d2 ∈ markList n ds → qualifies d2 = false → d2 ∈ ds := by
  induction ds with
  | nil => intro n d2 h _; simp [markList] at h
  | cons d ds ih =>
    intro n d2 hmem hq
    by_cases h : qualifies d = true
    · simp only [markList, h, if_true, List.mem_cons] at hmem
      rcases hmem with h1 | h2
      · exfalso
        rw [h1, qualifies_setMarkD] at hq
        rw [h] at hq
        exact Bool.noConfusion hq
      · exact List.mem_cons_of_mem d (ih (n + 1) d2 h2 hq)
    · have hb : qualifies d = false := by
        cases hqd : qualifies d
        · rfl
        · exact absurd hqd h
      simp only [markList, hb, Bool.false_eq_true, if_false, List.mem_cons] at hmem
      rcases hmem with h1 | h2
      · exact h1 ▸ List.mem_cons_self d ds
      · exact List.mem_cons_of_mem d (ih n d2 h2 hq)

theorem enumMark_length (ds : List ElemData) :
    ∀ n, (enumMark n ds).length = ds.length := by
  induction ds with
  | nil => intro n; rfl
  | cons d ds ih => intro n; simp [enumMark, ih (n + 1)]

theorem wfsStep_settled_stable (s : WfsState) (e : WfsEv) (v : Bool)
    (h : s.settled = some v) : (wfsStep s e).settled = some v := by
  cases e with
  | mutation found =>
    by_cases hc : (s.observerConnected && found) = true
    · simp [wfsStep, hc, resolveOnce, h]
    · simp [wfsStep, hc, h]
  | timeoutFire => simp [wfsStep, resolveOnce, h]

theorem wfsFoldl_settled_stable (evs : List WfsEv) :
    ∀ (s : WfsState) (v : Bool), s.settled = some v →
      (evs.foldl wfsStep s).settled = some v := by
  induction evs with
  | nil => intro s v h; exact h
  | cons e evs ih =>
    intro s v h
    exact ih (wfsStep s e) v (wfsStep_settled_stable s e v h)

theorem wfsStep_disconnected_stable (s : WfsState) (e : WfsEv)
    (h : s.observerConnected = false) : (wfsStep s e).observerConnected = false := by
  cases e with
  | mutation found => simp [wfsStep, h]
  | timeoutFire => simp [wfsStep]

theorem wfsFoldl_disconnected_stable (evs : List WfsEv) :
    ∀ s : WfsState, s.observerConnected = false →
      (evs.foldl wfsStep s).observerConnected = false := by
  induction evs with
  | nil => intro s h; exact h
  | cons e evs ih =>
    intro s h
    exact ih (wfsStep s e) (wfsStep_disconnected_stable s e h)

theorem wfsFoldl_timeout_settles (evs : List WfsEv)
    (hmem : WfsEv.timeoutFire ∈ evs) :
    ∀ s : WfsState, (evs.foldl wfsStep s).settled.isSome = true
      ∧ (evs.foldl wfsStep s).observerConnected = false := by
  induction evs with
  | nil => cases hmem
  | cons e evs ih =>
    intro s
    by_cases he : e = WfsEv.timeoutFire
    · subst he
      have hset : (wfsStep s WfsEv.timeoutFire).settled = some (s.settled.getD false) := by
        simp [wfsStep, resolveOnce]
      have hdis : (wfsStep s WfsEv.timeoutFire).observerConnected = false := by
        simp [wfsStep]
      constructor
      · have := wfsFoldl_settled_stable evs (wfsStep s WfsEv.timeoutFire) _ hset
        simp [List.foldl_cons, this]
      · have := wfsFoldl_disconnected_stable evs (wfsStep s WfsEv.timeoutFire) hdis
        simp [List.foldl_cons, this]
    · have hmem2 : WfsEv.timeoutFire ∈ evs := by
        cases hmem with
        | head => exact absurd rfl he
        | tail _ h => exact h
      simpa [List.foldl_cons] using ih hmem2 (wfsStep s e)

theorem wfsFoldl_eq_firstSettler :
    ∀ evs : List WfsEv, (firstSettler evs).isSome = true →
      (evs.foldl wfsStep { settled := none, observerConnected := true }).settled
        = firstSettler evs := by
  intro evs
  induction evs with
  | nil => intro h; simp [firstSettler] at h
  | cons e evs ih =>
    intro h
    cases e with
    | mutation found =>
      cases found with
      | true =>
        have hstep : wfsStep { settled := none, observerConnected := true }
            (WfsEv.mutation true)
            = { settled := some true, observerConnected := false } := by
          simp [wfsStep, resolveOnce]
        have hst := wfsFoldl_settled_stable evs
          { settled := some true, observerConnected := false } true (by rfl)
        simp [List.foldl_cons, hstep, firstSettler, hst]
      | false =>
        have hstep : wfsStep { settled := none, observerConnected := true }
            (WfsEv.mutation false) = { settled := none, observerConnected := true } := by
          simp [wfsStep]
        have h2 : (firstSettler evs).isSome = true := by
          simpa [firstSettler] using h
        simpa [List.foldl_cons, hstep, firstSettler] using ih h2
    | timeoutFire =>
      have hstep : wfsStep { settled := none, observerConnected := true }
          WfsEv.timeoutFire
          = { settled := some false, observerConnected := false } := by
        simp [wfsStep, resolveOnce]
      have hst := wfsFoldl_settled_stable evs
        { settled := some false, observerConnected := false } false (by rfl)
      simp [List.foldl_cons, hstep, firstSettler, hst]

theorem fillForm_length (o : DomOracle) :
    ∀ (fs : List FormField) (doc : Element),
      ((fillForm doc o fs).2.2).length = fs.length := by
  intro fs
  induction fs with
  | nil => intro doc; rfl
  | cons f fs ih =>
    intro doc
    cases hf : fillField doc o f with
    | ok p => simp [fillForm, hf, ih]
    | error m => simp [fillForm, hf, ih]

theorem fillForm_targets (o : DomOracle) :
    ∀ (fs : List FormField) (doc : Element) (i : Nat),
      (((fillForm doc o fs).2.2)[i]?).map FillResult.target
        = (fs[i]?).map FormField.target := by
  intro fs
  induction fs with
  | nil => intro doc i; rfl
  | cons f fs ih =>
    intro doc i
    cases i with
    | zero =>
      cases hf : fillField doc o f with
      | ok p => simp [fillForm, hf]
      | error m => simp [fillForm, hf]
    | succ i2 =>
      cases hf : fillField doc o f with
      | ok p => simp [fillForm, hf, ih]
      | error m => simp [fillForm, hf, ih]

theorem fillForm_entries (o : DomOracle) :
    ∀ (fs : List FormField) (doc : Element) (r : FillResult),
      r ∈ (fillForm doc o fs).2.2 →
        (r.ok = true ∧ r.error = none) ∨ (r.ok = false ∧ r.error.isSome = true) := by
  intro fs
  induction fs with
  | nil => intro doc r h; simp [fillForm] at h
  | cons f fs ih =>
    intro doc r hr
    cases hf : fillField doc o f with
    | ok p =>
      simp only [fillForm, hf, List.mem_cons] at hr
      rcases hr with h1 | h2
      · left; rw [h1]; exact ⟨rfl, rfl⟩
      · exact ih _ r h2
    | error m =>
      simp only [fillForm, hf, List.mem_cons] at hr
      rcases hr with h1 | h2
      · right; rw [h1]; exact ⟨rfl, rfl⟩
      · exact ih _ r h2

theorem a11yChildren_depth_gt (maxDepth : Nat) :
    ∀ (f : Forest) (depth : Nat), maxDepth < depth →
      a11yChildren maxDepth depth f = [] := by
  intro f
  induction f with
  | nil => intro depth h; rfl
  | node d c r ihc ihr =>
    intro depth h
    have hstep : a11yStep d c depth maxDepth (a11yChildren maxDepth (depth + 1) c)
        = none := by
      simp [a11yStep, h]
    simp [a11yChildren, hstep, ihr depth h]

theorem firstSettler_isSome_of_timeout :
    ∀ evs : List WfsEv, WfsEv.timeoutFire ∈ evs →
      (firstSettler evs).isSome = true := by
  intro evs
  induction evs with
  | nil => intro h; cases h
  | cons e evs ih =>
    intro h
    cases e with
    | mutation found =>
      cases found with
      | true => simp [firstSettler]
      | false =>
        have h2 : WfsEv.timeoutFire ∈ evs := by
          cases h with
          | tail _ hh => exact hh
        simpa [firstSettler] using ih h2
    | timeoutFire => simp [firstSettler]

/-- A default element record for building concrete page fixtures: a visible
`DIV` with no attributes and empty content. -/
def baseData : ElemData :=
  { tag := "DIV", attrs := [], rectW := 10, rectH := 10,
    cssVisibility := "visible", cssDisplay := "block", cssOpacity := "1",
    ownText := "", value := "", typeProp := none, checked := false,
    isContentEditable := false, labelTexts := [], options := none }

/-- An environment whose selector and XPath engines match nothing. -/
def noOrcW : DomOracle := ⟨fun _ => none, fun _ => none⟩

/-- An environment whose selector and XPath engines always match the root. -/
def yesOrcW : DomOracle := ⟨fun _ => some 0, fun _ => some 0⟩

/-- A marked `INPUT` element holding the value `old`. -/
def inputOldD : ElemData :=
  { baseData with tag := "INPUT", attrs := [(MARK_ATTR, "1")], value := "old" }

/-- A page whose body contains a marked `INPUT` holding the value `old`. -/
def wdoc6 : Element :=
  ⟨{ baseData with tag := "BODY" }, .node inputOldD .nil .nil⟩

/-- A page whose body contains a marked `SELECT` with options `a`/`Alpha`
(selected) and `b`/`Beta`. -/
def selDocW : Element :=
  ⟨{ baseData with tag := "BODY" },
   .node
     { baseData with
       tag := "SELECT"
       attrs := [(MARK_ATTR, "1")]
       options := some [⟨"a", "Alpha", true⟩, ⟨"b", "Beta", false⟩] }
     .nil .nil⟩

/-- C6: for every text-input element (tag `INPUT` or `TEXTAREA`) holding a
prior value and every text string, `typeInElement` with `clearFirst`
enabled updates the resolved element by the typing transformation, whose
final value is exactly the typed text: the prior value is fully discarded
and each character is appended in order. -/
theorem claim6_type_clearfirst (doc doc2 : Element) (o : DomOracle)
    (t : Option Target) (text : String) (opts : TypeOpts) (evs : List Ev)
    (i : Nat) (d : ElemData)
    (hres : typeInElement doc o t text opts = .ok (doc2, evs, i))
    (hd : refData doc i = some d)
    (htag : d.tag = "INPUT" ∨ d.tag = "TEXTAREA")
    (hclear : opts.clearFirst = true) :
    refData doc2 i = some (typeApply d text opts)
    ∧ (typeApply d text opts).value = text := by
  have hvalue : (typeApply d text opts).value = text := by
    have haux : ∀ (cs : List Char) (dd : ElemData),
        dd.tag = "INPUT" ∨ dd.tag = "TEXTAREA" →
          ((cs.foldl typeCharStep dd).value).data = dd.value.data ++ cs := by
      intro cs
      induction cs with
      | nil => intro dd _; simp
      | cons ch cs ih =>
        intro dd hdd
        have htg : (dd.tag == "INPUT" || dd.tag == "TEXTAREA") = true := by
          rcases hdd with h | h <;> simp [h]
        have hstep : typeCharStep dd ch = { dd with value := dd.value.push ch } := by
          simp [typeCharStep, htg]
        have htag2 : ({ dd with value := dd.value.push ch } : ElemData).tag = "INPUT"
            ∨ ({ dd with value := dd.value.push ch } : ElemData).tag = "TEXTAREA" := hdd
        rw [List.foldl_cons, hstep, ih _ htag2]
        simp [String.push]
    have hstart : ({ d with value := "" } : ElemData).tag = "INPUT"
        ∨ ({ d with value := "" } : ElemData).tag = "TEXTAREA" := htag
    apply String.ext
    rw [typeApply, hclear, if_pos rfl, String.foldl_eq, haux text.data _ hstart]
    rfl
  refine ⟨?_, hvalue⟩
  rw [typeInElement] at hres
  cases hrt : resolveTarget doc o t with
  | error e => rw [hrt] at hres; cases hres
  | ok j =>
    rw [hrt] at hres
    cases hres
    rw [elem_refData_updAt, if_pos rfl, hd]
    rfl

/-- C6 witness: typing `new` with `clearFirst` into the marked `INPUT`
holding `old` leaves the final value exactly `new`. -/
theorem claim6_type_clearfirst_witness :
    (typeApply inputOldD "new" { clearFirst := true }).value = "new" :=
  (claim6_type_clearfirst wdoc6 _ noOrcW (some { mark := some "1" }) "new"
    { clearFirst := true } _ _ _ rfl rfl (Or.inl rfl) rfl).2

/-- C7: `fillForm` returns exactly one result entry per input field, in the
same order (entry `i` carries field `i`'s target); every entry is either
`ok:true` with no error or `ok:false` with an error message; and a field
whose processing fails contributes its `ok:false` entry and leaves the
processing of the remaining fields exactly as it would have been without
it.  `fillForm` is a total function: it never raises. -/
theorem claim7_fillform_batch (doc : Element) (o : DomOracle) (fs : List FormField) :
    (((fillForm doc o fs).2.2).length = fs.length)
    ∧ (∀ i : Nat, (((fillForm doc o fs).2.2)[i]?).map FillResult.target
          = (fs[i]?).map FormField.target)
    ∧ (∀ r ∈ (fillForm doc o fs).2.2,
        (r.ok = true ∧ r.error = none) ∨ (r.ok = false ∧ r.error.isSome = true))
    ∧ (∀ (f : FormField) (fs2 : List FormField) (m : String),
        fillField doc o f = .error m →
          (fillForm doc o (f :: fs2)).2.2
            = { target := f.target, ok := false, error := some m }
                :: (fillForm doc o fs2).2.2) := by
  refine ⟨fillForm_length o fs doc, fillForm_targets o fs doc,
    fillForm_entries o fs doc, ?_⟩
  intro f fs2 m hf
  simp [fillForm, hf]

/-- C7 witness: on the select-page fixture, a batch with one resolvable and
one unresolvable field target yields exactly two results, the first
`ok:true`, the second `ok:false` with the caught message, and a failing
head field leaves the rest of the batch unchanged. -/
theorem claim7_fillform_batch_witness :
    (((⟨some { mark := some "9" }, false, some "No element with mark 9"⟩ : FillResult).ok = true
        ∧ (⟨some { mark := some "9" }, false, some "No element with mark 9"⟩ : FillResult).error = none)
      ∨ ((⟨some { mark := some "9" }, false, some "No element with mark 9"⟩ : FillResult).ok = false
        ∧ ((⟨some { mark := some "9" }, false, some "No element with mark 9"⟩ : FillResult).error).isSome = true))
    ∧ (fillForm selDocW noOrcW
        [⟨some { mark := some "9" }, .str "x", none⟩,
         ⟨some { mark := some "1" }, .str "a", some "select"⟩]).2.2
      = ⟨some { mark := some "9" }, false, some "No element with mark 9"⟩
          :: (fillForm selDocW noOrcW
                [⟨some { mark := some "1" }, .str "a", some "select"⟩]).2.2 := by
  constructor
  · apply (claim7_fillform_batch selDocW noOrcW
      [⟨some { mark := some "1" }, .str "a", some "select"⟩,
       ⟨some { mark := some "9" }, .str "x", none⟩]).2.2.1
    decide
  · apply (claim7_fillform_batch selDocW noOrcW []).2.2.2
    rfl

/-- C8: every `waitForSelector` run whose timer fires settles its promise
(and, the promise being write-once, settles it exactly once: a settled
prefix value persists to the end of the run); the mutation observer is
disconnected at the end of the run on both the success and the timeout
path; and the side of the race that settles first determines the result:
`true` for an immediately-present selector, otherwise the first
observer-visible match or the timeout, whichever comes first. -/
theorem claim8_wait_race (initiallyPresent : Bool) (evs : List WfsEv)
    (hto : WfsEv.timeoutFire ∈ evs) :
    ((wfsRun initiallyPresent evs).settled).isSome = true
    ∧ (wfsRun initiallyPresent evs).observerConnected = false
    ∧ (initiallyPresent = true → (wfsRun initiallyPresent evs).settled = some true)
    ∧ (initiallyPresent = false →
        (wfsRun initiallyPresent evs).settled = firstSettler evs)
    ∧ (∀ (l r : List WfsEv) (v : Bool), evs = l ++ r →
        (wfsRun initiallyPresent l).settled = some v →
          (wfsRun initiallyPresent evs).settled = some v) := by
  cases initiallyPresent with
  | true =>
    refine ⟨?_, ?_, ?_, ?_, ?_⟩
    · simp [wfsRun]
    · simp [wfsRun]
    · intro _; simp [wfsRun]
    · intro h; simp at h
    · intro l r v _ hv
      simp only [wfsRun, if_true] at hv ⊢
      exact hv
  | false =>
    have hrun : wfsRun false evs
        = evs.foldl wfsStep { settled := none, observerConnected := true } := by
      simp [wfsRun]
    have hfs := wfsFoldl_eq_firstSettler evs (firstSettler_isSome_of_timeout evs hto)
    refine ⟨?_, ?_, ?_, ?_, ?_⟩
    · rw [hrun]; exact (wfsFoldl_timeout_settles evs hto _).1
    · rw [hrun]; exact (wfsFoldl_timeout_settles evs hto _).2
    · intro h; simp at h
    · intro _; rw [hrun]; exact hfs
    · intro l r v heq hv
      subst heq
      rw [hrun, List.foldl_append]
      have hl : wfsRun false l
          = l.foldl wfsStep { settled := none, observerConnected := true } := by
        simp [wfsRun]
      rw [hl] at hv
      exact wfsFoldl_settled_stable r _ v hv

/-- C8 witness: with the selector absent at call time, a mutation batch
without a match, then one with a match, then the timer firing settles the
run at `true`, leaves the observer disconnected, and the settlement of the
prefix ending at the match persists to the end of the run. -/
theorem claim8_wait_race_witness :
    ((wfsRun false [.mutation false, .mutation true, .timeoutFire]).settled).isSome = true
    ∧ (wfsRun false [.mutation false, .mutation true, .timeoutFire]).observerConnected = false
    ∧ (wfsRun false [.mutation false, .mutation true, .timeoutFire]).settled = some true := by
  have h := claim8_wait_race false [.mutation false, .mutation true, .timeoutFire]
    (by decide)
  exact ⟨h.1, h.2.1,
    h.2.2.2.2 [.mutation false, .mutation true] [.timeoutFire] true rfl (by decide)⟩

/-- C9: after `clearSetOfMarks` on the document, no element carries the
mark attribute, and every mark-based target fails to resolve with the
`TargetNotFound`-style `No element with mark …` error, whatever the
referenced mark and whatever the selector/xpath engines. -/
theorem claim9_clear_marks (doc : Element) :
    (∀ d ∈ (clearSetOfMarks doc).allData, getAttr d.attrs MARK_ATTR = none)
    ∧ (∀ (m : String) (o : DomOracle),
        resolveTarget (clearSetOfMarks doc) o (some { mark := some m })
          = .error (.targetNotFound s!"No element with mark {m}")) := by
  have hall : ∀ d ∈ (clearSetOfMarks doc).allData, getAttr d.attrs MARK_ATTR = none := by
    intro d hd
    rw [clearSetOfMarks, elem_allData_mapData] at hd
    rcases List.mem_map.mp hd with ⟨x, _, rfl⟩
    exact getAttr_removeAttr_self x.attrs MARK_ATTR
  refine ⟨hall, ?_⟩
  intro m o
  have hq : queryMarkIdx (clearSetOfMarks doc) m = none := by
    rw [queryMarkIdx, List.findIdx?_eq_none_iff]
    intro x hx
    simp [hall x hx]
  simp [resolveTarget, hq]

/-- C9 witness: on the typed-input fixture, clearing removes the mark from
the `INPUT` element and the previously valid target `{mark:"1"}` no longer
resolves. -/
theorem claim9_clear_marks_witness :
    getAttr ({ inputOldD with attrs := [] } : ElemData).attrs MARK_ATTR = none
    ∧ resolveTarget (clearSetOfMarks wdoc6) noOrcW (some { mark := some "1" })
        = .error (.targetNotFound "No element with mark 1") := by
  constructor
  · apply (claim9_clear_marks wdoc6).1
    decide
  · exact (claim9_clear_marks wdoc6).2 "1" noOrcW

/-- C10: a `fillForm` field of select kind whose target resolves but whose
value matches no option by value-or-text equality leaves the document (in
particular the element's selection) unchanged, dispatches no event, and
still contributes an `ok:true` entry with no error. -/
theorem claim10_select_nomatch (doc : Element) (o : DomOracle) (f : FormField)
    (i : Nat) (d : ElemData) (obs : List SelectOption)
    (hkind : f.kind = some "select")
    (hres : resolveTarget doc o f.target = .ok i)
    (hd : refData doc i = some d)
    (hopts : d.options = some obs)
    (hnomatch : ∀ ob ∈ obs, optionMatches f.value ob = false) :
    fillField doc o f = .ok (doc, [])
    ∧ (fillForm doc o [f]).2.2 = [{ target := f.target, ok := true, error := none }] := by
  have hany : obs.any (optionMatches f.value) = false := by
    rw [List.any_eq_false]
    intro ob hob
    simp [hnomatch ob hob]
  have hfield : fillField doc o f = .ok (doc, []) := by
    simp only [fillField, hres, hd, hopts, hkind, hany]
    simp
  refine ⟨hfield, ?_⟩
  simp [fillForm, hfield]

/-- C10 witness: filling the fixture's `SELECT` with the unmatched value
`zzz` resolves the target, changes nothing, and reports `ok:true`. -/
theorem claim10_select_nomatch_witness :
    fillField selDocW noOrcW ⟨some { mark := some "1" }, .str "zzz", some "select"⟩
      = .ok (selDocW, [])
    ∧ (fillForm selDocW noOrcW
        [⟨some { mark := some "1" }, .str "zzz", some "select"⟩]).2.2
      = [{ target := some { mark := some "1" }, ok := true, error := none }] :=
  claim10_select_nomatch selDocW noOrcW _ 1 _ _ rfl rfl rfl rfl (by decide)

/-- A document body with no attributes, no text and no children. -/
def bodyC1 : Element := ⟨{ baseData with tag := "BODY" }, .nil⟩

/-- A document body whose text content is `hi`. -/
def bodyC1w : Element := ⟨{ baseData with tag := "BODY", ownText := "hi" }, .nil⟩

/-- C1 counterexample: the claim says the root node is never pruned and that
`getAccessibilityTree(maxDepth=0)` returns a single root node for every
document body; but for an empty body (name absent, child list empty, `BODY`
not in the interactive set) `buildA11yNode` at depth 0 returns absent —
the source's prune rule has no root exemption. -/
theorem claim1_root_never_pruned_cex :
    buildA11yNode bodyC1 0 0 = none ∧ getAccessibilityTree bodyC1 0 = none :=
  ⟨rfl, rfl⟩

/-- C1 (amended): the root is exempt only from the visibility rule, not
from pruning: `getAccessibilityTree` with `maxDepth = 0` returns absent
exactly when the body is `aria-hidden` or has no truthy name and a
non-interactive tag (the child list being necessarily empty at depth
bound 0); when it does return a node, that node's child list is empty. -/
theorem claim1_root_prune_amended (body : Element) :
    (getAccessibilityTree body 0 = none
      ↔ ((getAttr body.data.attrs "aria-hidden" == some "true") = true
          ∨ (a11yName body.data body.kids = none
              ∧ INTERACTIVE_TAGS.contains body.data.tag = false)))
    ∧ (∀ n, getAccessibilityTree body 0 = some n → n.children = []) := by
  have hch : a11yChildren 0 1 body.kids = [] :=
    a11yChildren_depth_gt 0 body.kids 1 (by omega)
  have hform : getAccessibilityTree body 0
      = if (getAttr body.data.attrs "aria-hidden" == some "true") = true then none
        else if (a11yName body.data body.kids).isNone
                && !INTERACTIVE_TAGS.contains body.data.tag then none
        else some (.mk (a11yRole body.data) (a11yName body.data body.kids)
                    body.data.tag (jsStr (getAttr body.data.attrs MARK_ATTR)) []) := by
    rw [getAccessibilityTree, buildA11yNode, hch, a11yStep]
    have h1 : ¬ (0 > 0) := by omega
    rw [if_neg h1]
    have h2 : (!isVisible body.data && decide (0 > 0)) = false := by
      simp
    rw [h2]
    simp only [Bool.false_eq_true, if_false, List.isEmpty_nil, Bool.and_true]
  rw [hform]
  by_cases hhid : (getAttr body.data.attrs "aria-hidden" == some "true") = true
  · rw [if_pos hhid]
    exact ⟨by simp [hhid], fun n hn => by cases hn⟩
  · rw [if_neg hhid]
    by_cases hpr : ((a11yName body.data body.kids).isNone
        && !INTERACTIVE_TAGS.contains body.data.tag) = true
    · rw [if_pos hpr]
      have hpr2 := hpr
      rw [Bool.and_eq_true, Option.isNone_iff_eq_none, Bool.not_eq_true'] at hpr2
      constructor
      · constructor
        · intro _
          right
          exact ⟨hpr2.1, hpr2.2⟩
        · intro _; rfl
      · intro n hn; cases hn
    · rw [if_neg hpr]
      constructor
      · constructor
        · intro hn; cases hn
        · intro hcase
          exfalso
          rcases hcase with h | ⟨h1, h2⟩
          · exact hhid h
          · exact hpr (by rw [h1, h2]; rfl)
      · intro n hn
        cases hn
        rfl

/-- C1 witness: a body with text content `hi` survives at depth bound 0 and
the returned root node has an empty child list. -/
theorem claim1_root_prune_amended_witness :
    A11yNode.children (.mk "body" (some "hi") "BODY" none []) = [] :=
  (claim1_root_prune_amended bodyC1w).2 (.mk "body" (some "hi") "BODY" none []) rfl

/-- The lookup selected by the preference order mark → selector → xpath of
`resolveTarget`, with presence read as the source reads it: a mark key
holding any string (or number) counts, while empty selector and xpath
strings are falsy and skipped. -/
def chosenLookup (doc : Element) (o : DomOracle) (t : Target) : Option Nat :=
  match t.mark with
  | some m => queryMarkIdx doc m
  | none =>
    if (jsStr t.selector).isSome then o.querySelector (t.selector.getD "")
    else if (jsStr t.xpath).isSome then o.evaluateXPath (t.xpath.getD "")
    else none

/-- C3 counterexample: the target `{selector: ""}` has its selector key
present, and the selector engine would even yield a match, yet
`resolveTarget` fails with the InvalidTarget-style error rather than
succeeding or failing TargetNotFound-style: presence is read as
JavaScript truthiness, so an empty selector string counts as absent. -/
theorem claim3_resolve_order_cex :
    (({ selector := some "" } : Target).selector).isSome = true
    ∧ (yesOrcW.querySelector "").isSome = true
    ∧ resolveTarget wdoc6 yesOrcW (some { selector := some "" })
        = .error (.invalidTarget "target must have mark, selector, or xpath") :=
  ⟨rfl, rfl, rfl⟩

/-- C3 (amended): with presence read as JavaScript truthiness (a mark key
holding any string counts, selector and xpath keys only when non-empty),
`resolveTarget` checks mark, then selector, then xpath; whenever some key
is present it fails TargetNotFound-style exactly when the chosen lookup
yields no match and returns the chosen match otherwise, and whenever no
key is present (including targets whose only set keys hold empty selector
or xpath strings) it fails InvalidTarget-style. -/
theorem claim3_resolve_order_amended (doc : Element) (o : DomOracle) (t : Target) :
    (t.mark.isSome = true ∨ (jsStr t.selector).isSome = true
        ∨ (jsStr t.xpath).isSome = true →
      ((∃ msg, resolveTarget doc o (some t) = .error (.targetNotFound msg))
          ↔ chosenLookup doc o t = none)
      ∧ (∀ i, chosenLookup doc o t = some i → resolveTarget doc o (some t) = .ok i))
    ∧ (t.mark = none → jsStr t.selector = none → jsStr t.xpath = none →
        resolveTarget doc o (some t)
          = .error (.invalidTarget "target must have mark, selector, or xpath")) := by
  obtain ⟨tm, ts, tx⟩ := t
  cases tm with
  | some m =>
    refine ⟨fun _ => ?_, fun hm2 _ _ => Option.noConfusion hm2⟩
    cases hq : queryMarkIdx doc m with
    | some i =>
      refine ⟨⟨?_, ?_⟩, ?_⟩
      · rintro ⟨msg, hmsg⟩
        simp [resolveTarget, hq] at hmsg
      · intro hc
        simp only [chosenLookup, hq] at hc
        exact Option.noConfusion hc
      · intro i2 hc
        simp only [chosenLookup, hq, Option.some.injEq] at hc
        subst hc
        simp [resolveTarget, hq]
    | none =>
      refine ⟨⟨?_, ?_⟩, ?_⟩
      · intro _
        simp only [chosenLookup, hq]
      · intro _
        exact ⟨s!"No element with mark {m}", by simp [resolveTarget, hq]⟩
      · intro i2 hc
        simp only [chosenLookup, hq] at hc
        exact Option.noConfusion hc
  | none =>
    by_cases hs : (jsStr ts).isSome = true
    · cases ts with
      | none => simp [jsStr] at hs
      | some s =>
        refine ⟨fun _ => ?_, fun _ hs2 _ => by simp [hs2] at hs⟩
        cases hsel : o.querySelector s with
        | some i =>
          refine ⟨⟨?_, ?_⟩, ?_⟩
          · rintro ⟨msg, hmsg⟩
            simp [resolveTarget, hs, hsel] at hmsg
          · intro hc
            simp only [chosenLookup, hs, if_true, Option.getD_some, hsel] at hc
            exact Option.noConfusion hc
          · intro i2 hc
            simp only [chosenLookup, hs, if_true, Option.getD_some, hsel,
              Option.some.injEq] at hc
            subst hc
            simp [resolveTarget, hs, hsel]
        | none =>
          refine ⟨⟨?_, ?_⟩, ?_⟩
          · intro _
            simp only [chosenLookup, hs, if_true, Option.getD_some, hsel]
          · intro _
            refine ⟨s!"No element matching \"{s}\"", ?_⟩
            simp [resolveTarget, hs, hsel]
          · intro i2 hc
            simp only [chosenLookup, hs, if_true, Option.getD_some, hsel] at hc
            exact Option.noConfusion hc
    · have hs2 : jsStr ts = none := by
        cases hj : jsStr ts
        · rfl
        · rw [hj] at hs; exact absurd rfl hs
      by_cases hx : (jsStr tx).isSome = true
      · cases tx with
        | none => simp [jsStr] at hx
        | some s =>
          refine ⟨fun _ => ?_, fun _ _ hx2 => by simp [hx2] at hx⟩
          cases hxp : o.evaluateXPath s with
          | some i =>
            refine ⟨⟨?_, ?_⟩, ?_⟩
            · rintro ⟨msg, hmsg⟩
              simp [resolveTarget, hs2, hx, hxp] at hmsg
            · intro hc
              simp only [chosenLookup, hs2, Option.isSome_none, Bool.false_eq_true,
                if_false, hx, if_true, Option.getD_some, hxp] at hc
              exact Option.noConfusion hc
            · intro i2 hc
              simp only [chosenLookup, hs2, Option.isSome_none, Bool.false_eq_true,
                if_false, hx, if_true, Option.getD_some, hxp,
                Option.some.injEq] at hc
              subst hc
              simp [resolveTarget, hs2, hx, hxp]
          | none =>
            refine ⟨⟨?_, ?_⟩, ?_⟩
            · intro _
              simp only [chosenLookup, hs2, Option.isSome_none, Bool.false_eq_true,
                if_false, hx, if_true, Option.getD_some, hxp]
            · intro _
              refine ⟨s!"No element at XPath \"{s}\"", ?_⟩
              simp [resolveTarget, hs2, hx, hxp]
            · intro i2 hc
              simp only [chosenLookup, hs2, Option.isSome_none, Bool.false_eq_true,
                if_false, hx, if_true, Option.getD_some, hxp] at hc
              exact Option.noConfusion hc
      · have hx2 : jsStr tx = none := by
          cases hj : jsStr tx
          · rfl
          · rw [hj] at hx; exact absurd rfl hx
        refine ⟨fun hpres => ?_, fun _ _ _ => ?_⟩
        · exfalso
          rcases hpres with h | h | h
          · simp at h
          · rw [hs2] at h; simp at h
          · rw [hx2] at h; simp at h
        · simp [resolveTarget, hs2, hx2]

/-- C3 witness: on the marked-input page, the target `{mark:"1"}` is
present, its lookup matches, and resolution returns the match; the target
`{mark:"9"}` is present, its lookup is empty, and resolution fails
TargetNotFound-style; the empty target is rejected InvalidTarget-style. -/
theorem claim3_resolve_order_amended_witness :
    resolveTarget wdoc6 noOrcW (some { mark := some "1" }) = .ok 1
    ∧ (∃ msg, resolveTarget wdoc6 noOrcW (some { mark := some "9" })
        = .error (.targetNotFound msg))
    ∧ resolveTarget wdoc6 noOrcW (some {})
        = .error (.invalidTarget "target must have mark, selector, or xpath") := by
  refine ⟨?_, ?_, ?_⟩
  · exact ((claim3_resolve_order_amended wdoc6 noOrcW { mark := some "1" }).1
      (Or.inl rfl)).2 1 rfl
  · exact ((claim3_resolve_order_amended wdoc6 noOrcW { mark := some "9" }).1
      (Or.inl rfl)).1.mpr rfl
  · exact (claim3_resolve_order_amended wdoc6 noOrcW {}).2 rfl rfl rfl

/-- The world of the dispatch counterexample: the marked-input page with a
wait-for-selector race lost to the timeout. -/
def w4c : World := ⟨wdoc6, noOrcW, false⟩

/-- C4 counterexample: the WAIT_FOR_SELECTOR timeout response is
`{ok:false, timedOut:true}` with no error string, so not every `ok:false`
response carries an error message. -/
theorem claim4_dispatch_cex :
    (dispatch w4c (.waitForSelectorMsg ".modal" (some 1000))).ok = false
    ∧ (dispatch w4c (.waitForSelectorMsg ".modal" (some 1000))).error = none
    ∧ (dispatch w4c (.waitForSelectorMsg ".modal" (some 1000))).timedOut = some true :=
  ⟨rfl, rfl, rfl⟩

/-- C4 (amended): every dispatched command returns a success payload
(`ok:true`), a structured failure with an error string, or the
WAIT_FOR_SELECTOR timeout response `{ok:false, timedOut:true}` — the one
`ok:false` shape without an error string.  Unknown command types yield a
structured failure with an error string, and any fault raised inside a
handler is caught at the dispatch boundary and converted to
`{ok:false, error:message}`. -/
theorem claim4_dispatch_amended (w : World) (msg : CSMessage) :
    ((dispatch w msg).ok = true ∨ ((dispatch w msg).error).isSome = true
      ∨ (dispatch w msg).timedOut = some true)
    ∧ (∀ s, msg = .unknown s →
        (dispatch w msg).ok = false ∧ ((dispatch w msg).error).isSome = true)
    ∧ (∀ m, handle w msg = .error m →
        dispatch w msg = { ok := false, error := some m, timedOut := none })
    ∧ ((dispatch w msg).ok = false → ((dispatch w msg).error).isSome = true
        ∨ ∃ sel tmo, msg = .waitForSelectorMsg sel tmo) := by
  have hboundary : ∀ m, handle w msg = .error m →
      dispatch w msg = { ok := false, error := some m, timedOut := none } := by
    intro m hm
    simp [dispatch, hm]
  refine ⟨?_, ?_, hboundary, ?_⟩
  · cases msg with
    | clickElem t opts =>
      cases hc : clickElement w.doc w.oracle t opts with
      | ok p => simp [dispatch, handle, hc]
      | error e => simp [dispatch, handle, hc]
    | typeElem t text opts =>
      cases hc : typeInElement w.doc w.oracle t text opts with
      | ok p => simp [dispatch, handle, hc]
      | error e => simp [dispatch, handle, hc]
    | waitForSelectorMsg sel tmo =>
      cases hw : w.waitFound with
      | true => simp [dispatch, handle, hw]
      | false => simp [dispatch, handle, hw]
    | unknown s => simp [dispatch, handle]
    | ping => simp [dispatch, handle]
    | getDomSnapshot a b => simp [dispatch, handle]
    | getAccessibilityTree md => simp [dispatch, handle]
    | applyMarks => simp [dispatch, handle]
    | clearMarks => simp [dispatch, handle]
    | scroll => simp [dispatch, handle]
    | fillFormMsg fields => simp [dispatch, handle]
    | getPageInfo => simp [dispatch, handle]
    | findElements a b => simp [dispatch, handle]
  · intro s hs
    subst hs
    simp [dispatch, handle]
  · intro hok
    cases msg with
    | clickElem t opts =>
      cases hc : clickElement w.doc w.oracle t opts with
      | ok p => simp [dispatch, handle, hc] at hok
      | error e => left; simp [dispatch, handle, hc]
    | typeElem t text opts =>
      cases hc : typeInElement w.doc w.oracle t text opts with
      | ok p => simp [dispatch, handle, hc] at hok
      | error e => left; simp [dispatch, handle, hc]
    | waitForSelectorMsg sel tmo => exact Or.inr ⟨sel, tmo, rfl⟩
    | unknown s => left; simp [dispatch, handle]
    | ping => simp [dispatch, handle] at hok
    | getDomSnapshot a b => simp [dispatch, handle] at hok
    | getAccessibilityTree md => simp [dispatch, handle] at hok
    | applyMarks => simp [dispatch, handle] at hok
    | clearMarks => simp [dispatch, handle] at hok
    | scroll => simp [dispatch, handle] at hok
    | fillFormMsg fields => simp [dispatch, handle] at hok
    | getPageInfo => simp [dispatch, handle] at hok
    | findElements a b => simp [dispatch, handle] at hok

/-- C4 witness: an unknown command type produces a structured failure with
an error string, and a click on an unresolvable target is caught at the
dispatch boundary and converted to `{ok:false, error:message}`. -/
theorem claim4_dispatch_amended_witness :
    ((dispatch w4c (.unknown "BOGUS")).ok = false
      ∧ ((dispatch w4c (.unknown "BOGUS")).error).isSome = true)
    ∧ dispatch w4c (.clickElem (some { mark := some "9" }) {})
        = { ok := false, error := some "No element with mark 9", timedOut := none } := by
  constructor
  · exact (claim4_dispatch_amended w4c (.unknown "BOGUS")).2.1 "BOGUS" rfl
  · exact (claim4_dispatch_amended w4c
      (.clickElem (some { mark := some "9" }) {})).2.2.1 "No element with mark 9" rfl

/-- An element carrying `aria-labelledby` and text content `hello`. -/
def el5C5 : Element :=
  ⟨{ baseData with attrs := [("aria-labelledby", "x")], ownText := "hello" }, .nil⟩

/-- C5 counterexample: for an element with an `aria-labelledby` attribute
and text content, `describeElement`'s label is the label-reference value
while `buildA11yNode`'s name falls through to the text content — the two
chains are not the same (`buildA11yNode` omits the label-reference and
associated-label steps). -/
theorem claim5_name_chain_cex :
    (buildA11yNode el5C5 0 8).map A11yNode.name
      ≠ some (describeLabel el5C5.data el5C5.kids) := by
  have h1 : (buildA11yNode el5C5 0 8).map A11yNode.name = some (some "hello") := rfl
  have h2 : describeLabel el5C5.data el5C5.kids = some "x" := rfl
  rw [h1, h2]
  simp

/-- C5 (amended): `buildA11yNode`'s name chain is `describeElement`'s label
chain with the label-reference attribute and associated-label-text steps
removed; for every element with no truthy `aria-labelledby` value and no
truthy associated label text the two chains agree, and the name of every
node `buildA11yNode` returns is the element's `a11yName`. -/
theorem claim5_name_chain_amended (e : Element) (depth maxDepth : Nat)
    (hlb : jsStr (getAttr e.data.attrs "aria-labelledby") = none)
    (hlab : jsStr ((e.data.labelTexts.head?).map jsTrim) = none) :
    a11yName e.data e.kids = describeLabel e.data e.kids
    ∧ (∀ n, buildA11yNode e depth maxDepth = some n →
        n.name = a11yName e.data e.kids) := by
  constructor
  · cases hal : jsStr (getAttr e.data.attrs "aria-label") with
    | some s => simp [a11yName, describeLabel, hal, Option.orElse]
    | none => simp [a11yName, describeLabel, hal, hlb, hlab, Option.orElse]
  · intro n hn
    rw [buildA11yNode, a11yStep] at hn
    split at hn
    · cases hn
    · split at hn
      · cases hn
      · split at hn
        · cases hn
        · split at hn
          · cases hn
          · cases hn
            rfl

/-- C5 witness: for an element with text `hi` and neither a label-reference
attribute nor associated labels, the accessibility name and the descriptor
label agree. -/
theorem claim5_name_chain_amended_witness :
    a11yName { baseData with ownText := "hi" } Forest.nil
      = describeLabel { baseData with ownText := "hi" } Forest.nil :=
  (claim5_name_chain_amended ⟨{ baseData with ownText := "hi" }, Forest.nil⟩
    0 8 rfl rfl).1

theorem clear_mark_none (doc : Element) :
    ∀ d ∈ (clearSetOfMarks doc).allData, getAttr d.attrs MARK_ATTR = none := by
  intro d hd
  rw [clearSetOfMarks, elem_allData_mapData] at hd
  rcases List.mem_map.mp hd with ⟨x, _, rfl⟩
  exact getAttr_removeAttr_self x.attrs MARK_ATTR

theorem applySetOfMarks_allData (doc : Element) :
    (applySetOfMarks doc).1.allData = markList 0 (clearSetOfMarks doc).allData := by
  by_cases h : qualifies (clearSetOfMarks doc).data = true
  · simp [applySetOfMarks, Element.allData, markForest_allData, markList, h]
  · have hb : qualifies (clearSetOfMarks doc).data = false := by
      cases hq : qualifies (clearSetOfMarks doc).data
      · rfl
      · exact absurd hq h
    simp [applySetOfMarks, Element.allData, markForest_allData, markList, hb]

theorem getInteractive_applySetOfMarks (doc : Element) :
    getInteractiveElements (applySetOfMarks doc).1
      = enumMark 0 ((clearSetOfMarks doc).allData.filter qualifies) := by
  rw [getInteractive_eq_filter, applySetOfMarks_allData, markList_filter_qualifies]

/-- The page of the labelling witness: a body containing a `DIV`, a
`BUTTON` carrying a stale mark `7` from an earlier pass, an `A`, a `SPAN`
and an invisible (zero-sized) `INPUT`; its visible qualifying elements in
document order are the `BUTTON` and the `A`. -/
def docM2 : Element :=
  ⟨{ baseData with tag := "BODY" },
   .node { baseData with tag := "DIV" } .nil
     (.node { baseData with tag := "BUTTON", attrs := [(MARK_ATTR, "7")] } .nil
       (.node { baseData with tag := "A" } .nil
         (.node { baseData with tag := "SPAN" } .nil
           (.node { baseData with tag := "INPUT", rectW := 0, rectH := 0 }
             .nil .nil))))⟩

/-- C2: after one labelling pass over a page with exactly K visible
qualifying elements, the registry keys are exactly the dense set
`"1".."K"`; the element at document-order position `i` (1-based) among the
qualifying elements of the labelled page carries mark `String(i)`; and the
pass entirely replaces any previous assignment: every element carrying a
mark after the pass is a currently qualifying element (with its positional
mark), so no stale mark from an earlier pass survives on any element. -/
theorem claim2_marks_dense (doc : Element) :
    ((applySetOfMarks doc).2
      = (List.range (getInteractiveElements (applySetOfMarks doc).1).length).map
          fun i => toString (i + 1))
    ∧ (∀ i : Nat,
        ((getInteractiveElements (applySetOfMarks doc).1)[i]?).bind
            (fun d => getAttr d.attrs MARK_ATTR)
          = ((getInteractiveElements (applySetOfMarks doc).1)[i]?).map
              (fun _ => toString (i + 1)))
    ∧ (∀ d ∈ (applySetOfMarks doc).1.allData,
        (getAttr d.attrs MARK_ATTR).isSome = true → qualifies d = true) := by
  have hGI := getInteractive_applySetOfMarks doc
  have hlen : (getInteractiveElements (applySetOfMarks doc).1).length
      = (getInteractiveElements (clearSetOfMarks doc)).length := by
    rw [hGI, enumMark_length, getInteractive_eq_filter]
  refine ⟨?_, ?_, ?_⟩
  · rw [hlen]
    simp [applySetOfMarks, getInteractive_eq_filter]
  · intro i
    rw [hGI, enumMark_get]
    cases hq : ((clearSetOfMarks doc).allData.filter qualifies)[i]? with
    | none => simp
    | some d =>
      simp [getAttr_setMarkD]
  · intro d hd hmark
    rw [applySetOfMarks_allData] at hd
    by_cases hq : qualifies d = true
    · exact hq
    · exfalso
      have hq2 : qualifies d = false := by
        cases hqq : qualifies d
        · rfl
        · exact absurd hqq hq
      have hmem := markList_not_qualifying _ 0 d hd hq2
      rw [clear_mark_none doc d hmem] at hmark
      cases hmark

/-- C2 witness: labelling the five-element fixture (two visible qualifying
elements, one carrying a stale mark `7`) yields registry keys
`["1", "2"]`, puts mark `1` on the first qualifying element (the
`BUTTON`, whose stale mark is gone), and every marked element of the
labelled page qualifies. -/
theorem claim2_marks_dense_witness :
    (applySetOfMarks docM2).2 = ["1", "2"]
    ∧ ((getInteractiveElements (applySetOfMarks docM2).1)[0]?).bind
        (fun d => getAttr d.attrs MARK_ATTR) = some "1"
    ∧ qualifies { baseData with tag := "BUTTON", attrs := [(MARK_ATTR, "1")] } = true := by
  refine ⟨?_, ?_, ?_⟩
  · rw [(claim2_marks_dense docM2).1]
    rfl
  · rw [(claim2_marks_dense docM2).2.1 0]
    rfl
  · exact (claim2_marks_dense docM2).2.2 _ (by decide) (by decide)

end OpenClaw
